import Mathlib

/-!
Shallow embedding of the `sshtun` package (file `sshtun.go`): the tunnel
lifecycle state machine (`Start`, `Stop`, `stop`), the reference-counted
client pool (`addConn`, `removeConn`), the endpoint direction helpers
(`fromEndpoint`, `toEndpoint`, `forwardFromName`, `forwardToName`) and the
accept loop (`listen`).  External effects (SSH dials, listener binds,
accepted connections, context cancellation observed at the final select)
are passed in as explicit outcome parameters; machine state is a record of
the mutable fields of the Go struct that the verified claims mention.
-/

namespace Sshtun

/-- Kind of an endpoint address.  Modelled from the spec: the `Endpoint`
value type lives in a repository file not present under `src/`; §3 of the
spec describes it as "kind (TCP | unix-socket), host, port, or socket
path". -/
inductive EndpointKind
  | tcp
  | unixSocket
deriving DecidableEq, Repr

/-- Modelled from the spec: immutable endpoint value (§3); the `Endpoint`
struct itself is defined in a repository file not present under `src/`.
Only its identity matters to the claims (which endpoint a helper
returns), never its formatting. -/
structure Endpoint where
  kind : EndpointKind
  host : String
  port : Int
  socketPath : String
deriving DecidableEq, Repr

/-- `ForwardType` from `sshtun.go`: Local forwards from localhost, Remote
is a reverse port forward. -/
inductive ForwardType
  | Local
  | Remote
deriving DecidableEq, Repr

/-- `ConnState` from `sshtun.go`: the tunnel-level state reported to the
optional `SetConnState` callback. -/
inductive ConnState
  | StateStopped
  | StateStarting
  | StateStarted
deriving DecidableEq, Repr

/-- Go `error` values produced by `sshtun.go`, one constructor per
`fmt.Errorf` site, each carrying the wrapped inner error and the endpoint
named in the message; `external` stands for an error produced outside the
package (by the ssh library or the OS). -/
inductive GoError
  | external (msg : String)
  | alreadyStarted
  | sshConfigFailed (inner : GoError)
  | localListenFailed (ep : Endpoint) (inner : GoError)
  | sshDialFailed (server : Endpoint) (inner : GoError)
  | remoteListenFailed (ep : Endpoint) (inner : GoError)
  | acceptFailed (fromName : String) (ep : Endpoint) (inner : GoError)
deriving DecidableEq, Repr

/-- The mutable fields of the Go `SSHTun` struct that the verified claims
mention.  `ctxCancelled` models whether the tunnel's context (created by
`context.WithCancel` inside `Start`) has been cancelled; an established
ssh client session is identified by a `Nat` handle, `none` standing for
Go's `nil`. -/
structure SSHTun where
  started : Bool
  ctxCancelled : Bool
  forwardType : ForwardType
  server : Endpoint
  localEp : Endpoint
  remoteEp : Endpoint
  active : Int
  sshClient : Option Nat
deriving DecidableEq, Repr

/-- Observable events of the client pool: a dial of the shared ssh
session and a close of it. -/
inductive PoolEvent
  | dialed (s : Nat)
  | closed (s : Nat)
deriving DecidableEq, Repr

/-- `addConn` from `sshtun.go`: under the mutex, in Local mode with no
active connection it dials the server (the dial outcome is the explicit
`dialResult` argument); a dial failure is returned as a wrapped error with
the state untouched; otherwise the active count is incremented and `nil`
is returned.  The middle component lists the pool events (here: the dial)
that occurred. -/
def addConn (tun : SSHTun) (dialResult : Except GoError Nat) :
    SSHTun × List PoolEvent × Option GoError :=
  if tun.forwardType = ForwardType.Local ∧ tun.active = 0 then
    match dialResult with
    | Except.error e =>
        (tun, [], some (GoError.sshDialFailed tun.server e))
    | Except.ok s =>
        ({ tun with sshClient := some s, active := tun.active + 1 },
         [PoolEvent.dialed s], none)
  else
    ({ tun with active := tun.active + 1 }, [], none)

/-- `removeConn` from `sshtun.go`: under the mutex, decrements the active
count and, in Local mode when it reaches zero, closes the shared session
and clears the handle.  `none` models the nil-pointer dereference that
`tun.sshClient.Close()` would be in Go if the handle were `nil` at that
point. -/
def removeConn (tun : SSHTun) : Option (SSHTun × List PoolEvent) :=
  let t := { tun with active := tun.active - 1 }
  if t.forwardType = ForwardType.Local ∧ t.active = 0 then
    match t.sshClient with
    | none => none
    | some s => some ({ t with sshClient := none }, [PoolEvent.closed s])
  else
    some (t, [])

instance : DecidableEq (Except GoError Nat) := fun x y =>
  match x, y with
  | Except.error a, Except.error b =>
      if h : a = b then isTrue (by rw [h]) else isFalse (by simp [h])
  | Except.error _, Except.ok _ => isFalse (by simp)
  | Except.ok _, Except.error _ => isFalse (by simp)
  | Except.ok a, Except.ok b =>
      if h : a = b then isTrue (by rw [h]) else isFalse (by simp [h])

/-- One serialized pool operation: an Acquire (`addConn`) with its dial
outcome, or a Release (`removeConn`). -/
inductive PoolOp
  | acquire (dialResult : Except GoError Nat)
  | release
deriving DecidableEq, Repr

/-- One serialized (mutex-ordered) step of the pool.  A failed acquire
leaves the state unchanged (the connection handler returns the error
without having incremented). -/
def stepPool (tun : SSHTun) : PoolOp → Option (SSHTun × List PoolEvent)
  | PoolOp.acquire d =>
      let r := addConn tun d
      some (r.1, r.2.1)
  | PoolOp.release => removeConn tun

/-- Run a serialized sequence of pool operations, collecting the pool
events; `none` if some step dereferenced a nil session handle. -/
def runPool (tun : SSHTun) : List PoolOp → Option (SSHTun × List PoolEvent)
  | [] => some (tun, [])
  | op :: ops =>
      match stepPool tun op with
      | none => none
      | some (t, evs) =>
          match runPool t ops with
          | none => none
          | some (t2, evs2) => some (t2, evs ++ evs2)

/-- A serialized trace is well formed when every Release happens while at
least one successful Acquire is outstanding (`active > 0` at that
point). -/
def wfTrace (tun : SSHTun) : List PoolOp → Bool
  | [] => true
  | op :: ops =>
      (decide (op = PoolOp.release → 0 < tun.active)) &&
      (match stepPool tun op with
       | none => true
       | some (t, _) => wfTrace t ops)

/-- Number of session dials among the pool events. -/
def countDialed : List PoolEvent → Nat
  | [] => 0
  | PoolEvent.dialed _ :: es => countDialed es + 1
  | PoolEvent.closed _ :: es => countDialed es

/-- Number of session closes among the pool events. -/
def countClosed : List PoolEvent → Nat
  | [] => 0
  | PoolEvent.dialed _ :: es => countClosed es
  | PoolEvent.closed _ :: es => countClosed es + 1

/-- Number of 0→1 transitions of `active` along the run of a trace. -/
def upTransitions (tun : SSHTun) : List PoolOp → Nat
  | [] => 0
  | op :: ops =>
      match stepPool tun op with
      | none => 0
      | some (t, _) =>
          (if tun.active = 0 ∧ t.active = 1 then 1 else 0) + upTransitions t ops

/-- Number of 1→0 transitions of `active` along the run of a trace. -/
def downTransitions (tun : SSHTun) : List PoolOp → Nat
  | [] => 0
  | op :: ops =>
      match stepPool tun op with
      | none => 0
      | some (t, _) =>
          (if tun.active = 1 ∧ t.active = 0 then 1 else 0) + downTransitions t ops

/-- `fromEndpoint` from `sshtun.go`: the listen-side endpoint (the remote
one for a Remote forward, the local one otherwise). -/
def fromEndpoint (tun : SSHTun) : Endpoint :=
  if tun.forwardType = ForwardType.Remote then tun.remoteEp else tun.localEp

/-- `toEndpoint` from `sshtun.go`: the dial-side endpoint (the local one
for a Remote forward, the remote one otherwise). -/
def toEndpoint (tun : SSHTun) : Endpoint :=
  if tun.forwardType = ForwardType.Remote then tun.localEp else tun.remoteEp

/-- `forwardFromName` from `sshtun.go`. -/
def forwardFromName (tun : SSHTun) : String :=
  if tun.forwardType = ForwardType.Remote then "remote" else "local"

/-- `forwardToName` from `sshtun.go`. -/
def forwardToName (tun : SSHTun) : String :=
  if tun.forwardType = ForwardType.Remote then "local" else "remote"

/-- Exchanges Local and Remote. -/
def flipForwardType : ForwardType → ForwardType
  | ForwardType.Local => ForwardType.Remote
  | ForwardType.Remote => ForwardType.Local

/-- `Stop` from `sshtun.go`: under the mutex, cancels the tunnel context
when started; otherwise does nothing.  The second component is the list
of tunnel-state notifications `Stop` itself emits (always none: the
`StateStopped` notification is emitted by the `stop` helper that `Start`
calls on its own way out). -/
def Stop (tun : SSHTun) : SSHTun × List ConnState :=
  if tun.started then ({ tun with ctxCancelled := true }, []) else (tun, [])

/-- The private `stop` helper from `sshtun.go`: clears the started flag,
emits `StateStopped`, and returns the given error unchanged. -/
def stopRun (tun : SSHTun) (err : Option GoError) :
    SSHTun × List ConnState × Option GoError :=
  ({ tun with started := false }, [ConnState.StateStopped], err)

/-- Outcomes of the external effects a `Start` call performs, passed in
explicitly: the ssh config build, the Local-mode local listener bind, the
Remote-mode server dial and remote-listen request, then — in the accept
phase — the results of the spawned per-connection handlers in completion
order (`none` for a handler returning nil, `some e` for one returning an
error, all completed before the accept loop terminated), the raw error
that ended `listener.Accept`, and whether the tunnel context was observed
cancelled at the final select in `listen`. -/
structure StartEnv where
  configResult : Except GoError Unit
  localListenResult : Except GoError Unit
  remoteDialResult : Except GoError Nat
  remoteListenResult : Except GoError Unit
  conns : List (Option GoError)
  acceptErr : GoError
  ctxCancelledAtSelect : Bool
deriving Repr

/-- The wrapped error the accept loop in `listen` returns when
`listener.Accept` fails. -/
def wrapAcceptErr (tun : SSHTun) (e : GoError) : GoError :=
  GoError.acceptFailed (forwardFromName tun) (fromEndpoint tun) e

/-- The error recorded by the `errgroup`: the first non-nil error among
the handler results (in completion order), or else the wrapped accept
error — the accept goroutine only ever returns a non-nil error. -/
def firstGroupErr : List (Option GoError) → GoError → GoError
  | [], acc => acc
  | some e :: _, _ => e
  | none :: rest, acc => firstGroupErr rest acc

/-- `listen` from `sshtun.go`, after the listener is in place: waits for
the error group, then returns nil if the tunnel context is cancelled at
the final select and the group's first error otherwise. -/
def listenRun (tun : SSHTun) (env : StartEnv) : Option GoError :=
  let ferr := firstGroupErr env.conns (wrapAcceptErr tun env.acceptErr)
  if env.ctxCancelledAtSelect then none else some ferr

/-- The listener-establishment phase of `Start`: a Local forward binds a
local listener on the local endpoint; a Remote forward dials the server
and then requests a remote listen on the remote endpoint.  Each failure
is wrapped with the phase and the endpoint named in the Go error
message. -/
def establishResult (tun : SSHTun) (env : StartEnv) : Except GoError Unit :=
  if tun.forwardType = ForwardType.Local then
    match env.localListenResult with
    | Except.error e => Except.error (GoError.localListenFailed tun.localEp e)
    | Except.ok _ => Except.ok ()
  else
    match env.remoteDialResult with
    | Except.error e => Except.error (GoError.sshDialFailed tun.server e)
    | Except.ok _ =>
        match env.remoteListenResult with
        | Except.error e => Except.error (GoError.remoteListenFailed tun.remoteEp e)
        | Except.ok _ => Except.ok ()

/-- `Start` from `sshtun.go`: rejects a second concurrent call, flags the
tunnel started, creates a fresh (uncancelled) context, emits
`StateStarting`, builds the ssh config, establishes the listen side,
spawns the accept loop, emits `StateStarted`, waits for the loop's
result, and leaves through `stop`.  Returns the final tunnel state, the
tunnel-state notifications delivered (in order) to a registered
`SetConnState` callback, and `Start`'s error result.  The per-connection
effects on `active`/`sshClient` are modelled separately by
`addConn`/`removeConn` (the pool is back in its initial state once every
handler has finished). -/
def startRun (tun : SSHTun) (env : StartEnv) :
    SSHTun × List ConnState × Option GoError :=
  if tun.started then (tun, [], some GoError.alreadyStarted)
  else
    let t1 : SSHTun := { tun with started := true, ctxCancelled := false }
    match env.configResult with
    | Except.error e =>
        let r := stopRun t1 (some (GoError.sshConfigFailed e))
        (r.1, ConnState.StateStarting :: r.2.1, r.2.2)
    | Except.ok _ =>
        match establishResult t1 env with
        | Except.error e =>
            let r := stopRun t1 (some e)
            (r.1, ConnState.StateStarting :: r.2.1, r.2.2)
        | Except.ok _ =>
            let t2 : SSHTun := { t1 with ctxCancelled := env.ctxCancelledAtSelect }
            let r := stopRun t2 (listenRun t1 env)
            (r.1, ConnState.StateStarting :: ConnState.StateStarted :: r.2.1, r.2.2)

/-- Notification events observable during a run of `Start`: a
tunnel-state notification or a per-connection `TunneledConnState`
notification (the latter emitted by the forwarder; modelled from the
spec, §4.4, since `forward` lives in a repository file not present under
`src/`). -/
inductive StartEvent
  | tunnelState (s : ConnState)
  | tunneledConn (idx : Nat)
deriving DecidableEq, Repr

/-- Order-preserving interleaving of two event sequences produced by two
concurrent goroutines. -/
inductive Shuffle : List StartEvent → List StartEvent → List StartEvent → Prop
  | nil : Shuffle [] [] []
  | left {x xs ys zs} : Shuffle xs ys zs → Shuffle (x :: xs) ys (x :: zs)
  | right {y xs ys zs} : Shuffle xs ys zs → Shuffle xs (y :: ys) (y :: zs)

/-- The events of `Start`'s own goroutine after it spawns the accept
loop: the `StateStarted` notification (line 282 of `sshtun.go`, after the
`go func` of line 277). -/
def postSpawnMainEvents : List StartEvent :=
  [StartEvent.tunnelState ConnState.StateStarted]

/-- The per-connection notification events the spawned accept-loop
goroutine may emit for `n` accepted connections. -/
def listenThreadEvents (n : Nat) : List StartEvent :=
  (List.range n).map StartEvent.tunneledConn

/-- True when no per-connection notification occurs before the first
notification of the given tunnel state. -/
def statePrecedesConns (s : ConnState) : List StartEvent → Bool
  | [] => true
  | StartEvent.tunnelState s' :: rest =>
      if s' = s then true else statePrecedesConns s rest
  | StartEvent.tunneledConn _ :: _ => false

/-- A TCP endpoint used in concrete instances (mirrors the example
program: local port 8080, server port 22, remote port 80). -/
def sampleEp (h : String) (p : Int) : Endpoint :=
  { kind := EndpointKind.tcp, host := h, port := p, socketPath := "" }

/-- A freshly-constructed Local-mode tunnel (the state `New` produces). -/
def sampleTun : SSHTun :=
  { started := false, ctxCancelled := false, forwardType := ForwardType.Local,
    server := sampleEp "my.super.host.com" 22,
    localEp := sampleEp "localhost" 8080,
    remoteEp := sampleEp "localhost" 80,
    active := 0, sshClient := none }

/-- The same tunnel in Remote (reverse) forward mode. -/
def sampleRemoteTun : SSHTun :=
  { sampleTun with forwardType := ForwardType.Remote }

/-- An environment in which every external step succeeds and the run ends
because the tunnel context was cancelled (a `Stop` call). -/
def sampleEnvOk : StartEnv :=
  { configResult := Except.ok (), localListenResult := Except.ok (),
    remoteDialResult := Except.ok 1, remoteListenResult := Except.ok (),
    conns := [], acceptErr := GoError.external "use of closed network connection",
    ctxCancelledAtSelect := true }

/-- An environment whose ssh config build fails. -/
def sampleEnvCfgFail : StartEnv :=
  { sampleEnvOk with configResult := Except.error (GoError.external "no key") }

/-- An environment whose local listener bind fails (port already bound). -/
def sampleEnvListenFail : StartEnv :=
  { sampleEnvOk with
      localListenResult := Except.error (GoError.external "address already in use") }

/-- An environment in which the accept loop fails with a socket error
while the tunnel context was never cancelled. -/
def sampleEnvAcceptFail : StartEnv :=
  { sampleEnvOk with
      acceptErr := GoError.external "socket error"
      ctxCancelledAtSelect := false }

end Sshtun

namespace Sshtun

/-- C5: for every tunnel whose started flag is true, `Start` returns
immediately with the already-started error, emits no state notification,
and leaves every field of the tunnel unchanged. -/
theorem start_already_started (tun : SSHTun) (env : StartEnv)
    (h : tun.started = true) :
    startRun tun env = (tun, [], some GoError.alreadyStarted) := by
  simp [startRun, h]

/-- Witness for C5: the already-started rejection at a concrete tunnel. -/
theorem start_already_started_witness :
    startRun { sampleTun with started := true } sampleEnvOk
      = ({ sampleTun with started := true }, [], some GoError.alreadyStarted) :=
  start_already_started { sampleTun with started := true } sampleEnvOk rfl

/-- C8: `Stop` never emits a notification; on a tunnel that is not
started it changes nothing at all; and repeated `Stop` calls are
idempotent on the tunnel state. -/
theorem stop_noop_and_idempotent (tun : SSHTun) :
    (Stop tun).2 = [] ∧
    (tun.started = false → Stop tun = (tun, [])) ∧
    (Stop (Stop tun).1).1 = (Stop tun).1 := by
  by_cases h : tun.started <;> simp [Stop, h]

/-- Witness for C8: on a concrete never-started tunnel, `Stop` is a
complete no-op, and a second `Stop` changes nothing further. -/
theorem stop_noop_and_idempotent_witness :
    Stop sampleTun = (sampleTun, []) ∧
    (Stop (Stop sampleTun).1).1 = (Stop sampleTun).1 :=
  ⟨(stop_noop_and_idempotent sampleTun).2.1 rfl,
   (stop_noop_and_idempotent sampleTun).2.2⟩

/-- C10: `fromEndpoint` is the local endpoint and `toEndpoint` the remote
one in Local mode, the reverse in Remote mode; `toEndpoint` equals
`fromEndpoint` of the tunnel with the forward type flipped, and the
direction names agree with that mapping. -/
theorem endpoint_direction (tun : SSHTun) :
    (tun.forwardType = ForwardType.Local →
      fromEndpoint tun = tun.localEp ∧ toEndpoint tun = tun.remoteEp ∧
      forwardFromName tun = "local" ∧ forwardToName tun = "remote") ∧
    (tun.forwardType = ForwardType.Remote →
      fromEndpoint tun = tun.remoteEp ∧ toEndpoint tun = tun.localEp ∧
      forwardFromName tun = "remote" ∧ forwardToName tun = "local") ∧
    toEndpoint tun
      = fromEndpoint { tun with forwardType := flipForwardType tun.forwardType } ∧
    forwardToName tun
      = forwardFromName { tun with forwardType := flipForwardType tun.forwardType } := by
  cases h : tun.forwardType <;>
    simp [fromEndpoint, toEndpoint, forwardFromName, forwardToName, flipForwardType, h]

/-- Witness for C10: the Local-mode mapping and the swap symmetry at a
concrete tunnel. -/
theorem endpoint_direction_witness :
    fromEndpoint sampleTun = sampleTun.localEp ∧
    toEndpoint sampleTun = sampleTun.remoteEp ∧
    forwardFromName sampleTun = "local" ∧ forwardToName sampleTun = "remote" :=
  (endpoint_direction sampleTun).1 rfl

/-- C7: `addConn` in Local mode: with no active connection, a dial
failure is returned with the state untouched, and a dial success stores
the session and increments `active`; with a connection already active it
just increments `active` and returns nil. -/
theorem addConn_local_contract (tun : SSHTun)
    (h : tun.forwardType = ForwardType.Local) :
    (∀ e, tun.active = 0 →
      addConn tun (Except.error e)
        = (tun, [], some (GoError.sshDialFailed tun.server e))) ∧
    (∀ s, tun.active = 0 →
      addConn tun (Except.ok s)
        = ({ tun with sshClient := some s, active := tun.active + 1 },
           [PoolEvent.dialed s], none)) ∧
    (∀ d, 0 < tun.active →
      addConn tun d = ({ tun with active := tun.active + 1 }, [], none)) := by
  refine ⟨?_, ?_, ?_⟩
  · intro e h0; simp [addConn, h, h0]
  · intro s h0; simp [addConn, h, h0]
  · intro d hpos
    have h0 : ¬tun.active = 0 := by omega
    simp [addConn, h0]

/-- Witness for C7: the three branches of the Acquire contract at
concrete states. -/
theorem addConn_local_contract_witness :
    addConn sampleTun (Except.error (GoError.external "refused"))
      = (sampleTun, [],
         some (GoError.sshDialFailed sampleTun.server (GoError.external "refused"))) ∧
    addConn sampleTun (Except.ok 5)
      = ({ sampleTun with sshClient := some 5, active := sampleTun.active + 1 },
         [PoolEvent.dialed 5], none) ∧
    addConn { sampleTun with active := 2, sshClient := some 5 } (Except.ok 9)
      = ({ sampleTun with active := 3, sshClient := some 5 }, [], none) :=
  ⟨(addConn_local_contract sampleTun rfl).1 (GoError.external "refused") rfl,
   (addConn_local_contract sampleTun rfl).2.1 5 rfl,
   (addConn_local_contract { sampleTun with active := 2, sshClient := some 5 }
      rfl).2.2 (Except.ok 9) (by decide)⟩

/-- C9: in Remote mode `addConn` always succeeds and only increments
`active`, and `removeConn` only decrements it; neither touches the shared
session handle, so the close branch never dereferences a nil client. -/
theorem remote_mode_pool (tun : SSHTun)
    (h : tun.forwardType = ForwardType.Remote) :
    (∀ d, addConn tun d = ({ tun with active := tun.active + 1 }, [], none)) ∧
    removeConn tun = some ({ tun with active := tun.active - 1 }, []) := by
  constructor
  · intro d; simp [addConn, h]
  · simp [removeConn, h]

/-- Witness for C9: Remote-mode Acquire and Release at a concrete
tunnel, including Release with a nil session handle. -/
theorem remote_mode_pool_witness :
    addConn sampleRemoteTun (Except.error (GoError.external "refused"))
      = ({ sampleRemoteTun with active := sampleRemoteTun.active + 1 }, [], none) ∧
    removeConn { sampleRemoteTun with active := 1 }
      = some ({ sampleRemoteTun with active := 0 }, []) :=
  ⟨(remote_mode_pool sampleRemoteTun rfl).1 (Except.error (GoError.external "refused")),
   (remote_mode_pool { sampleRemoteTun with active := 1 } rfl).2⟩

/-- C4: if `Start` fails while building the ssh config, binding the local
listener (Local mode), or dialing the server / requesting the remote
listen (Remote mode), the notifications are exactly
`[StateStarting, StateStopped]`, `StateStarted` is never emitted, the
started flag ends false, and the returned error wraps the failure naming
the failing phase and endpoint. -/
theorem start_setup_failure (tun : SSHTun) (env : StartEnv)
    (h : tun.started = false) :
    (∀ e, env.configResult = Except.error e →
      startRun tun env
        = ({ tun with started := false, ctxCancelled := false },
           [ConnState.StateStarting, ConnState.StateStopped],
           some (GoError.sshConfigFailed e))) ∧
    (∀ e, env.configResult = Except.ok () →
      tun.forwardType = ForwardType.Local →
      env.localListenResult = Except.error e →
      startRun tun env
        = ({ tun with started := false, ctxCancelled := false },
           [ConnState.StateStarting, ConnState.StateStopped],
           some (GoError.localListenFailed tun.localEp e))) ∧
    (∀ e, env.configResult = Except.ok () →
      tun.forwardType = ForwardType.Remote →
      env.remoteDialResult = Except.error e →
      startRun tun env
        = ({ tun with started := false, ctxCancelled := false },
           [ConnState.StateStarting, ConnState.StateStopped],
           some (GoError.sshDialFailed tun.server e))) ∧
    (∀ e s, env.configResult = Except.ok () →
      tun.forwardType = ForwardType.Remote →
      env.remoteDialResult = Except.ok s →
      env.remoteListenResult = Except.error e →
      startRun tun env
        = ({ tun with started := false, ctxCancelled := false },
           [ConnState.StateStarting, ConnState.StateStopped],
           some (GoError.remoteListenFailed tun.remoteEp e))) := by
  refine ⟨?_, ?_, ?_, ?_⟩
  · intro e hcfg
    simp [startRun, stopRun, h, hcfg]
  · intro e hcfg hft hl
    simp [startRun, stopRun, establishResult, h, hcfg, hft, hl]
  · intro e hcfg hft hd
    simp [startRun, stopRun, establishResult, h, hcfg, hft, hd]
  · intro e s hcfg hft hd hrl
    simp [startRun, stopRun, establishResult, h, hcfg, hft, hd, hrl]

/-- Witness for C4: the config-failure and local-bind-failure runs at a
concrete tunnel, each producing exactly `[Starting, Stopped]` and the
phase-naming error. -/
theorem start_setup_failure_witness :
    startRun sampleTun sampleEnvCfgFail
      = ({ sampleTun with started := false, ctxCancelled := false },
         [ConnState.StateStarting, ConnState.StateStopped],
         some (GoError.sshConfigFailed (GoError.external "no key"))) ∧
    startRun sampleTun sampleEnvListenFail
      = ({ sampleTun with started := false, ctxCancelled := false },
         [ConnState.StateStarting, ConnState.StateStopped],
         some (GoError.localListenFailed sampleTun.localEp
                 (GoError.external "address already in use"))) :=
  ⟨(start_setup_failure sampleTun sampleEnvCfgFail rfl).1
     (GoError.external "no key") rfl,
   (start_setup_failure sampleTun sampleEnvListenFail rfl).2.1
     (GoError.external "address already in use") rfl rfl rfl⟩

/-- C2: once `Start` has reached the accept phase, it returns nil exactly
when the tunnel context was cancelled (a `Stop` call or cancellation of
the caller's context); when the accept loop ends without cancellation,
`Start` returns the group's first error — the wrapped accept error when
no handler failed first. -/
theorem start_nil_iff_cancelled (tun : SSHTun) (env : StartEnv)
    (h : tun.started = false)
    (hcfg : env.configResult = Except.ok ())
    (hest : establishResult tun env = Except.ok ()) :
    ((startRun tun env).2.2 = none ↔ env.ctxCancelledAtSelect = true) ∧
    (env.ctxCancelledAtSelect = false →
      (startRun tun env).2.2
        = some (firstGroupErr env.conns (wrapAcceptErr tun env.acceptErr))) := by
  have hest' : establishResult { tun with started := true, ctxCancelled := false } env
      = Except.ok () := hest
  by_cases hx : env.ctxCancelledAtSelect <;>
    simp [startRun, stopRun, listenRun, wrapAcceptErr, forwardFromName, fromEndpoint,
      h, hcfg, hest', hx]

/-- Witness for C2: a cancelled run returns nil and an accept-failure run
returns the wrapped accept error, at a concrete tunnel. -/
theorem start_nil_iff_cancelled_witness :
    ((startRun sampleTun sampleEnvOk).2.2 = none ↔
      sampleEnvOk.ctxCancelledAtSelect = true) ∧
    (startRun sampleTun sampleEnvAcceptFail).2.2
      = some (firstGroupErr sampleEnvAcceptFail.conns
          (wrapAcceptErr sampleTun sampleEnvAcceptFail.acceptErr)) :=
  ⟨(start_nil_iff_cancelled sampleTun sampleEnvOk rfl rfl rfl).1,
   (start_nil_iff_cancelled sampleTun sampleEnvAcceptFail rfl rfl rfl).2 rfl⟩

/-- The dial error of the C1 scenario. -/
def dialRefused : GoError := GoError.external "connection refused"

/-- The error the connection handler returns when `addConn`'s dial of the
shared ssh session fails on the running tunnel. -/
def c1HandleResult : Option GoError :=
  (addConn { sampleTun with started := true } (Except.error dialRefused)).2.2

/-- The C1 run: every setup step succeeds, one accepted connection's
handler fails with the `addConn` dial error, the context is never
cancelled. -/
def c1Env : StartEnv :=
  { configResult := Except.ok (), localListenResult := Except.ok (),
    remoteDialResult := Except.ok 1, remoteListenResult := Except.ok (),
    conns := [c1HandleResult],
    acceptErr := GoError.external "use of closed network connection",
    ctxCancelledAtSelect := false }

/-- Counterexample to C1: in a run whose only failure is the `addConn`
dial failure of one accepted connection, `Start` does terminate and
returns exactly that connection's dial error — the failure is
tunnel-fatal, not connection-scoped. -/
theorem start_fatal_on_dial_failure_counterexample :
    c1HandleResult ≠ none ∧
    (startRun sampleTun c1Env).2.2 = c1HandleResult ∧
    (startRun sampleTun c1Env).2.2 ≠ none := by
  refine ⟨by decide, by decide, by decide⟩

/-- C1 amended: a failure to dial the shared ssh session inside `addConn`
is returned by the connection handler into the supervised error group,
which cancels the accept scope; when the tunnel's context is not
cancelled, `Start` returns that wrapped dial error, so the failure is
tunnel-fatal. -/
theorem start_returns_handler_dial_error (tun : SSHTun) (env : StartEnv)
    (e : GoError) (h : tun.started = false)
    (hcfg : env.configResult = Except.ok ())
    (hest : establishResult tun env = Except.ok ())
    (hconn : env.conns.head? = some (some e))
    (hctx : env.ctxCancelledAtSelect = false) :
    (startRun tun env).2.2 = some e := by
  have hest' : establishResult { tun with started := true, ctxCancelled := false } env
      = Except.ok () := hest
  rcases henv : env.conns with _ | ⟨c, rest⟩
  · rw [henv] at hconn; simp at hconn
  · rw [henv] at hconn
    simp only [List.head?] at hconn
    obtain rfl : c = some e := by injection hconn
    simp [startRun, stopRun, listenRun, firstGroupErr, h, hcfg, hest', hctx, henv]

/-- Witness for C1 amended: the concrete C1 run returns the handler's
dial error. -/
theorem start_returns_handler_dial_error_witness :
    (startRun sampleTun c1Env).2.2
      = some (GoError.sshDialFailed sampleTun.server dialRefused) :=
  start_returns_handler_dial_error sampleTun c1Env
    (GoError.sshDialFailed sampleTun.server dialRefused)
    rfl rfl rfl (by decide) rfl

/-- Any second list interleaves with any first list by running first. -/
theorem shuffle_append_right (ys xs : List StartEvent) :
    Shuffle xs ys (ys ++ xs) := by
  induction ys with
  | nil =>
      induction xs with
      | nil => exact Shuffle.nil
      | cons x xs ihx => exact Shuffle.left ihx
  | cons y ys ihy => exact Shuffle.right ihy

/-- Counterexample to C6: the accept-loop goroutine is spawned before the
`StateStarted` notification is emitted, so the two run concurrently and
the schedule in which an accepted connection's notification is delivered
before `StateStarted` is a valid interleaving of the post-spawn events. -/
theorem started_before_conns_counterexample :
    Shuffle postSpawnMainEvents (listenThreadEvents 1)
      [StartEvent.tunneledConn 0, StartEvent.tunnelState ConnState.StateStarted] ∧
    statePrecedesConns ConnState.StateStarted
      [StartEvent.tunneledConn 0, StartEvent.tunnelState ConnState.StateStarted]
      = false := by
  constructor
  · show Shuffle [StartEvent.tunnelState ConnState.StateStarted]
      [StartEvent.tunneledConn 0] _
    exact Shuffle.right (Shuffle.left Shuffle.nil)
  · rfl

/-- C6 amended: `StateStarting` is emitted before the accept loop is
spawned and therefore precedes every per-connection notification in every
schedule, but `StateStarted` is emitted after the spawn and is not
guaranteed to: for every run with at least one accepted connection there
is a valid interleaving in which a per-connection notification is
delivered before `StateStarted`. -/
theorem starting_precedes_conns_started_may_not (n : Nat) (hn : 0 < n) :
    (∃ l, Shuffle postSpawnMainEvents (listenThreadEvents n) l ∧
      statePrecedesConns ConnState.StateStarted l = false) ∧
    (∀ l, Shuffle postSpawnMainEvents (listenThreadEvents n) l →
      statePrecedesConns ConnState.StateStarting
        (StartEvent.tunnelState ConnState.StateStarting :: l) = true) := by
  constructor
  · refine ⟨listenThreadEvents n ++ postSpawnMainEvents,
      shuffle_append_right _ _, ?_⟩
    obtain ⟨m, rfl⟩ := Nat.exists_eq_succ_of_ne_zero (Nat.pos_iff_ne_zero.mp hn)
    rw [listenThreadEvents, List.range_succ_eq_map]
    simp [statePrecedesConns]
  · intro l _
    simp [statePrecedesConns]

/-- Witness for C6 amended: the single-connection instance. -/
theorem starting_precedes_conns_started_may_not_witness :
    (∃ l, Shuffle postSpawnMainEvents (listenThreadEvents 1) l ∧
      statePrecedesConns ConnState.StateStarted l = false) ∧
    (∀ l, Shuffle postSpawnMainEvents (listenThreadEvents 1) l →
      statePrecedesConns ConnState.StateStarting
        (StartEvent.tunnelState ConnState.StateStarting :: l) = true) :=
  starting_precedes_conns_started_may_not 1 (by decide)

/-- Invariant preservation along any well-formed serialized pool trace in
Local mode: the run never dereferences a nil session handle, `active`
stays non-negative, the session handle is non-nil exactly when
`active > 0`, and the dial/close events are in bijection with the
0→1 / 1→0 transitions of `active`. -/
theorem poolInvariant (ops : List PoolOp) :
    ∀ tun : SSHTun, tun.forwardType = ForwardType.Local →
    0 ≤ tun.active → (tun.sshClient.isSome ↔ 0 < tun.active) →
    wfTrace tun ops = true →
    ∃ t evs, runPool tun ops = some (t, evs) ∧
      t.forwardType = ForwardType.Local ∧ 0 ≤ t.active ∧
      (t.sshClient.isSome ↔ 0 < t.active) ∧
      countDialed evs = upTransitions tun ops ∧
      countClosed evs = downTransitions tun ops := by
  induction ops with
  | nil =>
      intro tun hft ha hinv _
      exact ⟨tun, [], rfl, hft, ha, hinv, rfl, rfl⟩
  | cons op ops ih =>
      intro tun hft ha hinv hwf
      simp only [wfTrace, Bool.and_eq_true, decide_eq_true_eq] at hwf
      obtain ⟨hw1, hw2⟩ := hwf
      cases op with
      | acquire d =>
          by_cases h0 : tun.active = 0
          · cases d with
            | error e =>
                have hstep : stepPool tun (PoolOp.acquire (Except.error e))
                    = some (tun, []) := by
                  simp [stepPool, addConn, hft, h0]
                simp only [hstep] at hw2
                obtain ⟨t, evs, hrun, ht1, ht2, ht3, ht4, ht5⟩ :=
                  ih tun hft ha hinv hw2
                refine ⟨t, evs, ?_, ht1, ht2, ht3, ?_, ?_⟩
                · simp [runPool, hstep, hrun]
                · simp [upTransitions, hstep, h0, ht4]
                · simp [downTransitions, hstep, h0, ht5]
            | ok s =>
                have hstep : stepPool tun (PoolOp.acquire (Except.ok s))
                    = some ({ tun with sshClient := some s, active := tun.active + 1 },
                            [PoolEvent.dialed s]) := by
                  simp [stepPool, addConn, hft, h0]
                simp only [hstep] at hw2
                obtain ⟨t, evs, hrun, ht1, ht2, ht3, ht4, ht5⟩ :=
                  ih { tun with sshClient := some s, active := tun.active + 1 }
                    (by show tun.forwardType = ForwardType.Local; exact hft)
                    (by show (0 : Int) ≤ tun.active + 1; omega)
                    (by show (Option.some s).isSome ↔ 0 < tun.active + 1
                        simp only [Option.isSome_some, true_iff]; omega)
                    hw2
                refine ⟨t, PoolEvent.dialed s :: evs, ?_, ht1, ht2, ht3, ?_, ?_⟩
                · simp [runPool, hstep, hrun]
                · simp only [countDialed, upTransitions, hstep, h0]
                  simp [h0, ht4]
                  omega
                · simp only [countClosed, downTransitions, hstep, h0]
                  simp [h0, ht5]
          · have hpos : 0 < tun.active := lt_of_le_of_ne ha (Ne.symm h0)
            have hsome : tun.sshClient.isSome = true := hinv.mpr hpos
            have hstep : stepPool tun (PoolOp.acquire d)
                = some ({ tun with active := tun.active + 1 }, []) := by
              simp [stepPool, addConn, h0]
            simp only [hstep] at hw2
            obtain ⟨t, evs, hrun, ht1, ht2, ht3, ht4, ht5⟩ :=
              ih { tun with active := tun.active + 1 }
                (by show tun.forwardType = ForwardType.Local; exact hft)
                (by show (0 : Int) ≤ tun.active + 1; omega)
                (by show tun.sshClient.isSome ↔ 0 < tun.active + 1
                    simp only [hsome, true_iff]; omega)
                hw2
            refine ⟨t, evs, ?_, ht1, ht2, ht3, ?_, ?_⟩
            · simp [runPool, hstep, hrun]
            · simp [upTransitions, hstep, h0, ht4]
            · simp [downTransitions, hstep, h0, ht5]
              omega
      | release =>
          have hrel : 0 < tun.active := hw1 rfl
          have hsome : tun.sshClient.isSome = true := hinv.mpr hrel
          obtain ⟨s, hs⟩ := Option.isSome_iff_exists.mp hsome
          by_cases h1 : tun.active = 1
          · have hstep : stepPool tun PoolOp.release
                = some ({ tun with active := tun.active - 1, sshClient := none },
                        [PoolEvent.closed s]) := by
              simp [stepPool, removeConn, hft, h1, hs]
            simp only [hstep] at hw2
            obtain ⟨t, evs, hrun, ht1, ht2, ht3, ht4, ht5⟩ :=
              ih { tun with active := tun.active - 1, sshClient := none }
                (by show tun.forwardType = ForwardType.Local; exact hft)
                (by show (0 : Int) ≤ tun.active - 1; omega)
                (by show (Option.none : Option Nat).isSome ↔ 0 < tun.active - 1
                    simp [h1])
                hw2
            refine ⟨t, PoolEvent.closed s :: evs, ?_, ht1, ht2, ht3, ?_, ?_⟩
            · simp [runPool, hstep, hrun]
            · simp only [countDialed, upTransitions, hstep]
              simp [h1, ht4]
            · simp only [countClosed, downTransitions, hstep]
              simp [h1, ht5]
              omega
          · have hstep : stepPool tun PoolOp.release
                = some ({ tun with active := tun.active - 1 }, []) := by
              have hne : ¬(tun.active - 1 = 0) := by omega
              simp [stepPool, removeConn, hne]
            simp only [hstep] at hw2
            obtain ⟨t, evs, hrun, ht1, ht2, ht3, ht4, ht5⟩ :=
              ih { tun with active := tun.active - 1 }
                (by show tun.forwardType = ForwardType.Local; exact hft)
                (by show (0 : Int) ≤ tun.active - 1; omega)
                (by show tun.sshClient.isSome ↔ 0 < tun.active - 1
                    simp only [hsome, true_iff]; omega)
                hw2
            refine ⟨t, evs, ?_, ht1, ht2, ht3, ?_, ?_⟩
            · simp [runPool, hstep, hrun]
            · simp [upTransitions, hstep, h1, ht4]
              omega
            · simp [downTransitions, hstep, h1, ht5]

/-- A well-formed trace stays well formed when truncated. -/
theorem wfTrace_of_append (p : List PoolOp) :
    ∀ (q : List PoolOp) (tun : SSHTun),
    wfTrace tun (p ++ q) = true → wfTrace tun p = true := by
  induction p with
  | nil => intro q tun _; rfl
  | cons op p ih =>
      intro q tun hwf
      simp only [List.cons_append, wfTrace, Bool.and_eq_true] at hwf ⊢
      refine ⟨hwf.1, ?_⟩
      rcases hstep : stepPool tun op with _ | ⟨t, evs⟩
      · simp [hstep]
      · have h2 := hwf.2
        simp only [hstep] at h2 ⊢
        exact ih q t h2

/-- C3: along every serialized, well-formed sequence of Acquire/Release
operations on a fresh Local-mode tunnel, the shared session is dialed
exactly once at each 0→1 transition of `active` and closed exactly once
at each 1→0 transition; `active` never goes negative and the session
handle is non-nil exactly when `active > 0`, at the end and at every
intermediate point. -/
theorem pool_refcount (tun : SSHTun) (ops : List PoolOp)
    (hft : tun.forwardType = ForwardType.Local)
    (ha : tun.active = 0) (hc : tun.sshClient = none)
    (hwf : wfTrace tun ops = true) :
    (∃ t evs, runPool tun ops = some (t, evs) ∧
       countDialed evs = upTransitions tun ops ∧
       countClosed evs = downTransitions tun ops ∧
       0 ≤ t.active ∧ (t.sshClient.isSome ↔ 0 < t.active)) ∧
    (∀ p q, ops = p ++ q →
       ∃ t evs, runPool tun p = some (t, evs) ∧
         0 ≤ t.active ∧ (t.sshClient.isSome ↔ 0 < t.active)) := by
  have hinv : tun.sshClient.isSome ↔ 0 < tun.active := by
    rw [hc, ha]; simp
  constructor
  · obtain ⟨t, evs, h1, _, h3, h4, h5, h6⟩ :=
      poolInvariant ops tun hft (by omega) hinv hwf
    exact ⟨t, evs, h1, h5, h6, h3, h4⟩
  · intro p q hpq
    have hwfp : wfTrace tun p = true := wfTrace_of_append p q tun (hpq ▸ hwf)
    obtain ⟨t, evs, h1, _, h3, h4, _, _⟩ :=
      poolInvariant p tun hft (by omega) hinv hwfp
    exact ⟨t, evs, h1, h3, h4⟩

/-- A concrete serialized schedule: two connections acquire (the first
dials session 5, the second reuses it), then both release. -/
def sampleOps : List PoolOp :=
  [PoolOp.acquire (Except.ok 5), PoolOp.acquire (Except.ok 9),
   PoolOp.release, PoolOp.release]

/-- Witness for C3: on the concrete two-connection schedule the run
succeeds with exactly one dial and one close and a clean final state. -/
theorem pool_refcount_witness :
    (∃ t evs, runPool sampleTun sampleOps = some (t, evs) ∧
       countDialed evs = upTransitions sampleTun sampleOps ∧
       countClosed evs = downTransitions sampleTun sampleOps ∧
       0 ≤ t.active ∧ (t.sshClient.isSome ↔ 0 < t.active)) ∧
    (∀ p q, sampleOps = p ++ q →
       ∃ t evs, runPool sampleTun p = some (t, evs) ∧
         0 ≤ t.active ∧ (t.sshClient.isSome ↔ 0 < t.active)) :=
  pool_refcount sampleTun sampleOps rfl rfl rfl (by decide)

end Sshtun
